import Mathlib

/-!
Shallow embedding of the Quiz-Master application (src/app.py).

Text is modelled as `List Char`; a multi-line text uses '\n' as the line
separator.  The Python string operations used by `parse_questions` are
reimplemented with their Python semantics:

* `str.replace(old, new)` — single left-to-right pass over the string,
  non-overlapping occurrences, scanning resumes after each replacement.
  Specialised below to the three concrete patterns the code uses
  (`"\r\n" -> "\n"`, `"\n\n\n" -> "\n\n"`, marker removal).
* `str.strip()` — removes leading and trailing whitespace
  (space, tab, newline, carriage return, vertical tab, form feed).
* `str.split(sep)` — keeps empty pieces; `"".split(sep) == [""]`.
* `dict` assignment — insertion order preserved, assigning to an existing
  key updates the value in place.
-/

namespace QuizMaster

/-- Python whitespace characters stripped by `str.strip()` (ASCII range). -/
def isPySpace (c : Char) : Bool :=
  c = ' ' || c = '\t' || c = '\n' || c = '\r' || c = Char.ofNat 11 || c = Char.ofNat 12

/-- Python `str.strip()`: drop leading and trailing whitespace. -/
def pyStrip (l : List Char) : List Char :=
  ((l.dropWhile isPySpace).reverse.dropWhile isPySpace).reverse

/-- Python `text.split('\n')`: split on single newlines, keeping empty pieces. -/
def splitNL : List Char → List (List Char)
  | [] => [[]]
  | c :: rest =>
    if c = '\n' then [] :: splitNL rest
    else
      match splitNL rest with
      | [] => [[c]]
      | l :: ls => (c :: l) :: ls

/-- Python `text.split("\n\n")`: split on double newlines, left to right,
non-overlapping, keeping empty pieces. -/
def splitBlank : List Char → List (List Char)
  | '\n' :: '\n' :: rest => [] :: splitBlank rest
  | c :: rest =>
    match splitBlank rest with
    | [] => [[c]]
    | l :: ls => (c :: l) :: ls
  | [] => [[]]

/-- Python `'\n'.join(lines)`. -/
def joinNL : List (List Char) → List Char
  | [] => []
  | [l] => l
  | l :: l2 :: rest => l ++ '\n' :: joinNL (l2 :: rest)

/-- Python `text.replace('\r\n', '\n')`. -/
def replaceCRLF : List Char → List Char
  | '\r' :: '\n' :: rest => '\n' :: replaceCRLF rest
  | c :: rest => c :: replaceCRLF rest
  | [] => []

/-- Python `text.replace('\n\n\n', '\n\n')`: one left-to-right pass,
scanning resumes after each replacement. -/
def collapse3 : List Char → List Char
  | '\n' :: '\n' :: '\n' :: rest => '\n' :: '\n' :: collapse3 rest
  | c :: rest => c :: collapse3 rest
  | [] => []

/-- Python `line.replace("Answer:", "")`: delete every occurrence. -/
def dropAnswerTags : List Char → List Char
  | 'A' :: 'n' :: 's' :: 'w' :: 'e' :: 'r' :: ':' :: rest => dropAnswerTags rest
  | c :: rest => c :: dropAnswerTags rest
  | [] => []

/-- Python `line.replace("Explanation:", "")`: delete every occurrence. -/
def dropExplTags : List Char → List Char
  | 'E' :: 'x' :: 'p' :: 'l' :: 'a' :: 'n' :: 'a' :: 't' :: 'i' :: 'o' :: 'n' :: ':' :: rest =>
    dropExplTags rest
  | c :: rest => c :: dropExplTags rest
  | [] => []

/-- Python `line.split(":", 1)[1]` when a colon is present: the text after
the first colon. -/
def afterColon : List Char → List Char
  | [] => []
  | ':' :: rest => rest
  | _ :: rest => afterColon rest

/-- Ordered-dict assignment `d[k] = v`: updates an existing key in place,
otherwise appends at the end (Python dict insertion-order semantics). -/
def dictInsert {α β : Type} [DecidableEq α] (d : List (α × β)) (k : α) (v : β) :
    List (α × β) :=
  match d with
  | [] => [(k, v)]
  | (k0, v0) :: rest => if k0 = k then (k, v) :: rest else (k0, v0) :: dictInsert rest k v

/-- A parsed question, mirroring the dict
`{"question": ..., "options": ..., "answer": ..., "explanation": ...}`
appended by `parse_questions` (src/app.py lines 127-132). -/
structure Question where
  question : List Char
  options : List (List Char × List Char)
  answer : List Char
  explanation : List Char
  deriving DecidableEq, Repr

instance : Inhabited Question := ⟨⟨[], [], [], []⟩⟩

/-- Python test `any(line.strip().startswith(opt + ".") for opt in "ABCD")`
(src/app.py line 101). -/
def isOptionLine (l : List Char) : Bool :=
  [ 'A', 'B', 'C', 'D'].any fun o => List.isPrefixOf [o, '.'] (pyStrip l)

/-- Python test `line.strip().startswith("Answer:")` (src/app.py line 112). -/
def isAnswerLine (l : List Char) : Bool :=
  List.isPrefixOf ('A' :: 'n' :: 's' :: 'w' :: 'e' :: 'r' :: ':' :: []) (pyStrip l)

/-- Python test `line.strip().startswith("Explanation:")` (src/app.py line 113). -/
def isExplLine (l : List Char) : Bool :=
  List.isPrefixOf
    ('E' :: 'x' :: 'p' :: 'l' :: 'a' :: 'n' :: 'a' :: 't' :: 'i' :: 'o' :: 'n' :: ':' :: [])
    (pyStrip l)

/-- The option lines of a block (src/app.py line 101). -/
def optionLinesOf (block : List Char) : List (List Char) :=
  (splitNL block).filter isOptionLine

/-- The prompt extracted from a block: text after the first colon of the
first line if a colon exists, else the whole first line, stripped
(src/app.py line 98). -/
def promptOf (block : List Char) : List Char :=
  let line0 := (splitNL block).headD []
  if ':' ∈ line0 then pyStrip (afterColon line0) else pyStrip line0

/-- First line of the block starting (after stripping) with "Answer:",
defaulting to the empty string: `next((... ), "")` (src/app.py line 112). -/
def answerLineOf (block : List Char) : List Char :=
  ((splitNL block).find? isAnswerLine).getD []

/-- First line of the block starting (after stripping) with "Explanation:",
defaulting to the empty string (src/app.py line 113). -/
def explLineOf (block : List Char) : List Char :=
  ((splitNL block).find? isExplLine).getD []

/-- The options dict built from the option lines: key `line[0]` (as a
one-character string), value `line[2:].strip()` (src/app.py lines 106-109). -/
def optionsOf (block : List Char) : List (List Char × List Char) :=
  (optionLinesOf block).foldl (fun d l => dictInsert d (l.take 1) (pyStrip (l.drop 2))) []

/-- The body of the per-block loop of `parse_questions`
(src/app.py lines 92-135): `none` when the block is skipped, `some q` when a
question dict is appended. -/
def blockToQuestion (block : List Char) : Option Question :=
  if List.isPrefixOf ['Q'] (pyStrip block) then
    if (optionLinesOf block).length ≠ 4 then none
    else
      if answerLineOf block = [] ∨ explLineOf block = [] then none
      else
        if pyStrip (dropAnswerTags (answerLineOf block)) ∈
            ([ ['A'], ['B'], ['C'], ['D'] ] : List (List Char)) then
          some ⟨promptOf block, optionsOf block,
                pyStrip (dropAnswerTags (answerLineOf block)),
                pyStrip (dropExplTags (explLineOf block))⟩
        else none
  else none

/-- The cleaned text (src/app.py lines 76-78): normalise line endings,
strip every line, collapse `"\n\n\n"` to `"\n\n"` in one pass. -/
def cleanText (text : List Char) : List Char :=
  collapse3 (joinNL ((splitNL (replaceCRLF text)).map pyStrip))

/-- Candidate blocks: Python `text.strip().split("\n\n")` (src/app.py line 89). -/
def blocksOf (text : List Char) : List (List Char) :=
  splitBlank (pyStrip (cleanText text))

/-- All valid questions recovered from the text, in block order. -/
def validQuestions (text : List Char) : List Question :=
  (blocksOf text).filterMap blockToQuestion

/-- The error message displayed on insufficient yield
(src/app.py line 139): it interpolates only the requested count. -/
def insufficientMsg (numQuestions : Nat) : List Char :=
  ("Could not generate ".toList) ++ (Nat.repr numQuestions).toList ++
    (" valid questions. Please try again.".toList)

/-- The function `parse_questions(text, num_questions)` (src/app.py
lines 63-145): returns the list of questions together with the `st.error`
message it displays, if any.  On shortfall it returns `[]` with the error
message; otherwise the first `num_questions` valid questions and no error. -/
def parse_questions (text : List Char) (numQuestions : Nat) :
    List Question × Option (List Char) :=
  if (validQuestions text).length < numQuestions then
    ([], some (insufficientMsg numQuestions))
  else ((validQuestions text).take numQuestions, none)

/-!
The quiz-session state.  Mirrors the `st.session_state` keys used by the
application: `questions`, `current_q`, `score`, `quiz_started`,
`quiz_complete`, `user_answers` (src/app.py lines 28-30), the widget value
`num_questions` (line 150, `NUM_QUESTIONS` at line 174, default 3), and the
timing keys `start_time` (line 167) and `time_taken` (line 209), both absent
(`none`) until assigned.  Timestamps are modelled as natural numbers.
The per-question radio-widget keys (`q_0`, `q_1`, ...) are not modelled:
no claim depends on them.
-/

structure QuizState where
  questions : List Question
  current_q : Nat
  score : Nat
  quiz_started : Bool
  quiz_complete : Bool
  user_answers : List (Nat × List Char)
  num_questions : Nat
  start_time : Option Nat
  time_taken : Option Nat
  deriving DecidableEq, Repr

/-- The freshly initialised session state (src/app.py lines 28-30):
empty question list, zero counters, flags false, empty answers dict;
`num_questions` defaults to 3 (line 150 / line 174). -/
def initState : QuizState :=
  ⟨[], 0, 0, false, false, [], 3, none, none⟩

/-- The Start Quiz handler body after a parse attempt
(src/app.py lines 158-167): if the parsed list is empty the state is left
unchanged (an error is shown instead); otherwise the questions are stored,
the quiz is marked started, counters and answers are reset and the start
timestamp is recorded.  `n` is the `num_questions` widget value. -/
def applyStart (s : QuizState) (qs : List Question) (n : Nat) (t : Nat) : QuizState :=
  if qs = [] then s
  else
    { questions := qs, current_q := 0, score := 0, quiz_started := true,
      quiz_complete := false, user_answers := [], num_questions := n,
      start_time := some t, time_taken := s.time_taken }

/-- The Submit Answer handler (src/app.py lines 193-209): records the
selected key for the current index, increments the score iff the selection
equals the stored answer, then either advances `current_q` (when
`current_q < NUM_QUESTIONS - 1`) or marks the quiz complete and stores the
elapsed time (when `start_time` is present).  `t` is the current time. -/
def submitAnswer (s : QuizState) (sel : List Char) (t : Nat) : QuizState :=
  match s.questions[s.current_q]? with
  | none => s
  | some q =>
    if s.current_q < s.num_questions - 1 then
      { s with
        user_answers := dictInsert s.user_answers s.current_q sel,
        score := if sel = q.answer then s.score + 1 else s.score,
        current_q := s.current_q + 1 }
    else
      { s with
        user_answers := dictInsert s.user_answers s.current_q sel,
        score := if sel = q.answer then s.score + 1 else s.score,
        quiz_complete := true,
        time_taken :=
          match s.start_time with
          | some t0 => some (t - t0)
          | none => s.time_taken }

/-- What the main quiz interface does on a rerun. -/
inductive QuizView where
  | notShown : QuizView
  | fault : QuizView
  | completed : QuizState → QuizView
  | showQuestion : QuizState → Question → QuizView
  deriving DecidableEq

/-- The main quiz interface (src/app.py lines 177-190): shown only while
started and not complete; the defensive check (lines 179-181) marks the
quiz complete when `current_q >= len(questions)` before any indexing;
otherwise the current question is fetched and displayed.  An out-of-range
fetch would be a `fault`. -/
def mainQuizView (s : QuizState) : QuizView :=
  if s.quiz_started = true ∧ s.quiz_complete = false then
    if s.questions.length ≤ s.current_q then
      QuizView.completed { s with quiz_complete := true }
    else
      match s.questions[s.current_q]? with
      | some q => QuizView.showQuestion s q
      | none => QuizView.fault
  else QuizView.notShown

/-- The Restart Quiz handler (src/app.py lines 263-270): resets the six
session keys to their initial values and deletes the radio-widget keys.
The timing keys `start_time` and `time_taken` are not in the reset list
and are not `q_`-prefixed, so they survive; `num_questions` survives too. -/
def restartQuiz (s : QuizState) : QuizState :=
  { questions := [], current_q := 0, score := 0, quiz_started := false,
    quiz_complete := false, user_answers := [],
    num_questions := s.num_questions,
    start_time := s.start_time, time_taken := s.time_taken }

/-- One user-visible transition of the application. `start` is available
only from the initialisation interface (shown when the quiz has not been
started, line 148), and only succeeds when `parse_questions` produced a
non-empty list; the widget bounds the requested count to 1..30 (line 150).
`submit` and `defensive` are the two branches of the main quiz interface;
`restart` is offered on the results page (shown when complete, line 212). -/
inductive Step : QuizState → QuizState → Prop where
  | start (s : QuizState) (raw : List Char) (n t : Nat) :
      s.quiz_started = false → 1 ≤ n → n ≤ 30 →
      (parse_questions raw n).1 ≠ [] →
      Step s (applyStart s (parse_questions raw n).1 n t)
  | submit (s : QuizState) (sel : List Char) (t : Nat) :
      s.quiz_started = true → s.quiz_complete = false →
      s.current_q < s.questions.length →
      Step s (submitAnswer s sel t)
  | defensive (s : QuizState) :
      s.quiz_started = true → s.quiz_complete = false →
      s.questions.length ≤ s.current_q →
      Step s { s with quiz_complete := true }
  | restart (s : QuizState) :
      s.quiz_complete = true →
      Step s (restartQuiz s)

/-- States reachable from the fresh session. -/
def Reachable (s : QuizState) : Prop :=
  Relation.ReflTransGen Step initState s

/-- The score percentage derived on the results page
(src/app.py line 226): `(score / total_questions) * 100`. -/
def percentage (s : QuizState) : ℚ :=
  ((s.score : ℚ) / (s.questions.length : ℚ)) * 100

/-- Submitting the correct key for the current question, `k` times in a row
(the all-correct run of the round-trip property). -/
def runCorrect (s : QuizState) (t : Nat) : Nat → QuizState
  | 0 => s
  | k + 1 => runCorrect (submitAnswer s (s.questions.getD s.current_q default).answer t) t k

/-!  Concrete texts and questions used to evaluate the model. -/

/-- The well-formed example block of the specification. -/
def exampleBlock : List Char :=
  ("Q1: What is 2+2?\nA. 3\nB. 4\nC. 5\nD. 6\nAnswer: B\nExplanation: Basic arithmetic.".toList)

/-- The question the example block parses to. -/
def exampleQ : Question :=
  ⟨("What is 2+2?".toList),
   [(['A'], ['3']), (['B'], ['4']), (['C'], ['5']), (['D'], ['6'])],
   ['B'], ("Basic arithmetic.".toList)⟩

/-- A second well-formed block. -/
def exampleBlock2 : List Char :=
  ("Q2: Second?\nA. 1\nB. 2\nC. 3\nD. 4\nAnswer: C\nExplanation: f.".toList)

/-- The question the second block parses to. -/
def exampleQ2 : Question :=
  ⟨("Second?".toList),
   [(['A'], ['1']), (['B'], ['2']), (['C'], ['3']), (['D'], ['4'])],
   ['C'], ['f', '.']⟩

/-- A block with four option-pattern lines but a duplicated letter
(A, A, C, D): letter B is missing. -/
def dupLetterBlock : List Char :=
  ("Q1: x?\nA. 1\nA. 2\nC. 3\nD. 4\nAnswer: A\nExplanation: e.".toList)

/-- What the duplicated-letter block parses to: three options, the second
"A." line having overwritten the first in the dict. -/
def dupLetterQ : Question :=
  ⟨['x', '?'], [(['A'], ['2']), (['C'], ['3']), (['D'], ['4'])], ['A'], ['e', '.']⟩

/-- A block whose first line is bare "Q:", so the extracted prompt is empty. -/
def emptyPromptBlock : List Char :=
  ("Q:\nA. 1\nB. 2\nC. 3\nD. 4\nAnswer: A\nExplanation: e.".toList)

/-- What the empty-prompt block parses to. -/
def emptyPromptQ : Question :=
  ⟨[], [(['A'], ['1']), (['B'], ['2']), (['C'], ['3']), (['D'], ['4'])], ['A'], ['e', '.']⟩

/-- A block whose Explanation line carries no value. -/
def emptyExplBlock : List Char :=
  ("Q1: x?\nA. 1\nB. 2\nC. 3\nD. 4\nAnswer: A\nExplanation:".toList)

/-- What the empty-explanation block parses to. -/
def emptyExplQ : Question :=
  ⟨['x', '?'], [(['A'], ['1']), (['B'], ['2']), (['C'], ['3']), (['D'], ['4'])], ['A'], []⟩

/-- A block with only three option lines. -/
def threeOptionBlock : List Char :=
  ("Q1: x?\nA. 1\nB. 2\nC. 3\nAnswer: A\nExplanation: e.".toList)

/-- A block with no Explanation line at all. -/
def noExplBlock : List Char :=
  ("Q1: x?\nA. 1\nB. 2\nC. 3\nD. 4\nAnswer: A".toList)

/-!  Helper lemmas shared by the claim theorems. -/

/-- Unpacking a successful per-block parse: each field of the produced
question comes from the corresponding extraction function. -/
lemma blockToQuestion_eq_some {b : List Char} {q : Question}
    (h : blockToQuestion b = some q) :
    q.question = promptOf b ∧ q.options = optionsOf b ∧
    q.answer = pyStrip (dropAnswerTags (answerLineOf b)) ∧
    q.explanation = pyStrip (dropExplTags (explLineOf b)) := by
  unfold blockToQuestion at h
  by_cases h1 : List.isPrefixOf ['Q'] (pyStrip b)
  · rw [if_pos h1] at h
    by_cases h2 : (optionLinesOf b).length ≠ 4
    · rw [if_pos h2] at h; exact absurd h (by simp)
    · rw [if_neg h2] at h
      by_cases h3 : answerLineOf b = [] ∨ explLineOf b = []
      · rw [if_pos h3] at h; exact absurd h (by simp)
      · rw [if_neg h3] at h
        by_cases h4 : pyStrip (dropAnswerTags (answerLineOf b)) ∈
            ([ ['A'], ['B'], ['C'], ['D'] ] : List (List Char))
        · rw [if_pos h4] at h
          injection h with h
          subst h
          exact ⟨rfl, rfl, rfl, rfl⟩
        · rw [if_neg h4] at h; exact absurd h (by simp)
  · rw [if_neg h1] at h; exact absurd h (by simp)

/-- A block with an option-line count other than four is always skipped. -/
lemma blockToQuestion_of_optionCount {b : List Char}
    (h : (optionLinesOf b).length ≠ 4) : blockToQuestion b = none := by
  unfold blockToQuestion
  by_cases h1 : List.isPrefixOf ['Q'] (pyStrip b)
  · rw [if_pos h1, if_pos h]
  · rw [if_neg h1]

/-- A block none of whose lines starts with "Explanation:" is always
skipped. -/
lemma blockToQuestion_of_noExpl {b : List Char}
    (h : ∀ l ∈ splitNL b, isExplLine l = false) : blockToQuestion b = none := by
  have hfind : (splitNL b).find? isExplLine = none :=
    List.find?_eq_none.mpr (fun x hx => by simp [h x hx])
  have hexpl : explLineOf b = [] := by
    unfold explLineOf
    rw [hfind]
    rfl
  unfold blockToQuestion
  by_cases h1 : List.isPrefixOf ['Q'] (pyStrip b)
  · rw [if_pos h1]
    by_cases h2 : (optionLinesOf b).length ≠ 4
    · rw [if_pos h2]
    · rw [if_neg h2, if_pos (Or.inr hexpl)]
  · rw [if_neg h1]

/-- The first element satisfying `p` is found, whatever follows it. -/
lemma find?_first {α : Type} (p : α → Bool) (ls1 ls2 : List α) (a : α)
    (ha : p a = true) (h1 : ∀ l ∈ ls1, p l = false) :
    (ls1 ++ a :: ls2).find? p = some a := by
  induction ls1 with
  | nil =>
    simp only [List.nil_append]
    rw [List.find?_cons_of_pos _ ha]
  | cons x xs ih =>
    have hx : p x = false := h1 x (List.mem_cons_self x xs)
    rw [List.cons_append, List.find?_cons_of_neg _ (by simp [hx])]
    exact ih (fun l hl => h1 l (List.mem_cons_of_mem x hl))

/-- Splitting a single newline-free line yields that line. -/
lemma splitNL_no_nl {l : List Char} (h : '\n' ∉ l) : splitNL l = [l] := by
  induction l with
  | nil => rfl
  | cons c cs ih =>
    have hc : ¬ c = '\n' := fun e => h (by simp [e])
    have hcs : '\n' ∉ cs := fun m => h (List.mem_cons_of_mem _ m)
    simp [splitNL, hc, ih hcs]

/-- Splitting peels off a leading newline-free line. -/
lemma splitNL_append {l t : List Char} (h : '\n' ∉ l) :
    splitNL (l ++ '\n' :: t) = l :: splitNL t := by
  induction l with
  | nil => simp [splitNL]
  | cons c cs ih =>
    have hc : ¬ c = '\n' := fun e => h (by simp [e])
    have hcs : '\n' ∉ cs := fun m => h (List.mem_cons_of_mem _ m)
    simp [splitNL, hc, ih hcs]

/-- Splitting on newlines inverts joining newline-free lines. -/
lemma splitNL_joinNL {ls : List (List Char)} (hne : ls ≠ [])
    (h : ∀ l ∈ ls, '\n' ∉ l) : splitNL (joinNL ls) = ls := by
  induction ls with
  | nil => exact absurd rfl hne
  | cons l rest ih =>
    cases rest with
    | nil => simp [joinNL, splitNL_no_nl (h l (by simp))]
    | cons l2 rest2 =>
      have hl : '\n' ∉ l := h l (by simp)
      calc splitNL (joinNL (l :: l2 :: rest2))
          = splitNL (l ++ '\n' :: joinNL (l2 :: rest2)) := by rw [joinNL]
        _ = l :: splitNL (joinNL (l2 :: rest2)) := splitNL_append hl
        _ = l :: (l2 :: rest2) := by
            rw [ih (by simp) (fun x hx => h x (by simp [hx]))]

/-!  Concrete multi-block texts for the separator experiments. -/

/-- Two well-formed blocks separated by exactly one blank line. -/
def twoBlocksOneBlank : List Char :=
  exampleBlock ++ ("\n\n".toList) ++ exampleBlock2

/-- The same two blocks separated by a run of exactly two blank lines. -/
def twoBlocksTwoBlank : List Char :=
  exampleBlock ++ ("\n\n\n".toList) ++ exampleBlock2

/-- The same two blocks separated by a run of exactly three blank lines. -/
def twoBlocksThreeBlank : List Char :=
  exampleBlock ++ ("\n\n\n\n".toList) ++ exampleBlock2

/-!  Lines for a block that repeats the Answer and Explanation markers. -/

/-- Leading lines of the duplicated-marker block (no Answer line yet). -/
def dupMarkerLead : List (List Char) :=
  [("Q1: x?".toList), ("A. 1".toList), ("B. 2".toList), ("C. 3".toList), ("D. 4".toList)]

/-- The first Answer line of the duplicated-marker block. -/
def dupMarkerAnswer : List Char := ("Answer: B".toList)

/-- The rest of the duplicated-marker block: a second Answer line and two
Explanation lines. -/
def dupMarkerRest : List (List Char) :=
  [("Answer: C".toList), ("Explanation: first.".toList), ("Explanation: second.".toList)]

/-- What the duplicated-marker block parses to: the first Answer line and
the first Explanation line win. -/
def dupMarkerQ : Question :=
  ⟨['x', '?'], [(['A'], ['1']), (['B'], ['2']), (['C'], ['3']), (['D'], ['4'])],
   ['B'], ("first.".toList)⟩

/-- C1, counterexample.  On a text yielding one valid question with two
requested, `parse_questions` fails with the empty list and an error message
that contains the requested count (the digit 2) but no occurrence of the
achieved count (the digit 1): the failure result does not carry the
achieved count, contradicting the claim. -/
theorem parse_failure_lacks_achieved_count :
    (validQuestions exampleBlock).length = 1 ∧
    parse_questions exampleBlock 2 = ([], some (insufficientMsg 2)) ∧
    '2' ∈ insufficientMsg 2 ∧ '1' ∉ insufficientMsg 2 := by decide

/-- C1, amended.  For every text and positive requested count: on a
shortfall of valid questions the parse fails, returning the empty list —
never a partial set — together with an error message carrying only the
requested count; when the yield is at least the requested count (boundary
included) it returns exactly the first `n` valid questions in block order. -/
theorem parse_result_policy : ∀ (text : List Char) (n : Nat), 1 ≤ n →
    ((validQuestions text).length < n →
      parse_questions text n = ([], some (insufficientMsg n))) ∧
    (n ≤ (validQuestions text).length →
      (parse_questions text n).1 = (validQuestions text).take n ∧
      (parse_questions text n).2 = none ∧
      (parse_questions text n).1.length = n) := by
  intro text n _
  refine ⟨fun h => ?_, fun h => ?_⟩
  · simp [parse_questions, h]
  · have hnl : ¬ (validQuestions text).length < n := Nat.not_lt.mpr h
    refine ⟨?_, ?_, ?_⟩ <;>
      simp [parse_questions, hnl, List.length_take, Nat.min_eq_left h]

/-- C1, witness: the policy evaluated at the boundary (yield equal to the
requested count succeeds). -/
theorem parse_result_policy_witness :
    1 ≤ 1 ∧ 1 ≤ (validQuestions exampleBlock).length ∧
    ((parse_questions exampleBlock 1).1 = (validQuestions exampleBlock).take 1 ∧
     (parse_questions exampleBlock 1).2 = none ∧
     (parse_questions exampleBlock 1).1.length = 1) :=
  ⟨by decide, by decide,
   (parse_result_policy exampleBlock 1 (by decide)).2 (by decide)⟩

/-- C2, counterexample.  A block with exactly four option-pattern lines
whose letters are A, A, C, D — four matches that do not cover the four
distinct letters — is not discarded: it parses to a question with three
options and appears in the output of `parse_questions`. -/
theorem dup_letter_block_accepted :
    (optionLinesOf dupLetterBlock).length = 4 ∧
    (optionLinesOf dupLetterBlock).map (fun l => l.take 1) =
      [['A'], ['A'], ['C'], ['D']] ∧
    blockToQuestion dupLetterBlock = some dupLetterQ ∧
    dupLetterQ.options.map Prod.fst = [['A'], ['C'], ['D']] ∧
    parse_questions dupLetterBlock 1 = ([dupLetterQ], none) := by decide

/-- C2, amended.  A block whose count of option-pattern lines differs from
four is invalid and never yields a question; distinctness of the four
letters is not checked (duplicates are accepted, the later line
overwriting the earlier value in the mapping). -/
theorem option_count_four_required : ∀ b : List Char,
    (optionLinesOf b).length ≠ 4 → blockToQuestion b = none :=
  fun _ h => blockToQuestion_of_optionCount h

/-- C2, witness: a three-option block is discarded. -/
theorem option_count_four_required_witness :
    (optionLinesOf threeOptionBlock).length ≠ 4 ∧
    blockToQuestion threeOptionBlock = none :=
  ⟨by decide, option_count_four_required threeOptionBlock (by decide)⟩

/-- C3, counterexample.  A block whose first line is the bare marker "Q:"
has an empty extracted prompt, yet it is not discarded: a question with
empty prompt text appears in the output of `parse_questions`. -/
theorem empty_prompt_question_in_output :
    promptOf emptyPromptBlock = [] ∧
    blockToQuestion emptyPromptBlock = some emptyPromptQ ∧
    emptyPromptQ.question = [] ∧
    parse_questions emptyPromptBlock 1 = ([emptyPromptQ], none) := by decide

/-- C3, amended.  The prompt of every parsed question is the trimmed text
after the first colon of the block's first line (or the whole first line
when no colon exists), but emptiness of the prompt is never checked: a
question whose prompt is the empty string can appear in the parse output. -/
theorem prompt_extraction_rule :
    (∀ (b : List Char) (q : Question),
      blockToQuestion b = some q → q.question = promptOf b) ∧
    (∃ (b : List Char) (q : Question),
      blockToQuestion b = some q ∧ q.question = [] ∧
      (parse_questions b 1).1 = [q]) :=
  ⟨fun _ _ h => (blockToQuestion_eq_some h).1,
   ⟨emptyPromptBlock, emptyPromptQ, by decide, by decide, by decide⟩⟩

/-- C3, witness: the extraction rule evaluated on the example block. -/
theorem prompt_extraction_rule_witness :
    blockToQuestion exampleBlock = some exampleQ ∧
    exampleQ.question = promptOf exampleBlock :=
  ⟨by decide, prompt_extraction_rule.1 exampleBlock exampleQ (by decide)⟩

/-- C4, counterexample.  A block whose Explanation line carries an empty
value is not discarded: the question is produced with an empty explanation
and appears in the output of `parse_questions`, contradicting the claim. -/
theorem empty_explanation_accepted :
    explLineOf emptyExplBlock = ("Explanation:".toList) ∧
    pyStrip (dropExplTags (explLineOf emptyExplBlock)) = [] ∧
    blockToQuestion emptyExplBlock = some emptyExplQ ∧
    emptyExplQ.explanation = [] ∧
    parse_questions emptyExplBlock 1 = ([emptyExplQ], none) := by decide

/-- C4, amended.  A block with no line beginning with the "Explanation:"
marker is invalid and never yields a question; but when such a line exists
its value is not checked for emptiness, so a question with an empty
explanation can be produced. -/
theorem explanation_marker_required :
    (∀ b : List Char,
      (∀ l ∈ splitNL b, isExplLine l = false) → blockToQuestion b = none) ∧
    (∃ (b : List Char) (q : Question),
      blockToQuestion b = some q ∧ q.explanation = []) :=
  ⟨fun _ h => blockToQuestion_of_noExpl h,
   ⟨emptyExplBlock, emptyExplQ, by decide, by decide⟩⟩

/-- C4, witness: a block with no Explanation line is discarded. -/
theorem explanation_marker_required_witness :
    (∀ l ∈ splitNL noExplBlock, isExplLine l = false) ∧
    blockToQuestion noExplBlock = none :=
  ⟨by decide, explanation_marker_required.1 noExplBlock (by decide)⟩

/-- C5, counterexample.  Replacing the single blank-line separator between
two well-formed blocks by a run of three blank lines changes the parse
result: the second block is still recovered but its prompt is parsed as the
empty string, because the single-pass replacement turns the three blank
lines into two, leaving a leading blank line attached to the second block. -/
theorem triple_blank_changes_parse :
    parse_questions twoBlocksThreeBlank 2 ≠ parse_questions twoBlocksOneBlank 2 ∧
    (parse_questions twoBlocksOneBlank 2).1.map Question.question =
      [("What is 2+2?".toList), ("Second?".toList)] ∧
    (parse_questions twoBlocksThreeBlank 2).1.map Question.question =
      [("What is 2+2?".toList), []] := by decide

/-- C5, amended.  The blank-line normalisation is a single left-to-right
replacement of each triple newline by a double newline: a run of exactly
two blank lines is collapsed to one (so, contrary to the claim, runs of two
are altered — harmlessly: the parse result is unchanged), while a run of
three blank lines leaves a leading blank line on the following block, which
is then parsed with an empty prompt — the parse result is not preserved. -/
theorem blank_run_normalisation :
    cleanText twoBlocksTwoBlank = cleanText twoBlocksOneBlank ∧
    parse_questions twoBlocksTwoBlank 2 = parse_questions twoBlocksOneBlank 2 ∧
    parse_questions twoBlocksOneBlank 2 = ([exampleQ, exampleQ2], none) ∧
    (parse_questions twoBlocksThreeBlank 2).1.map Question.question =
      [("What is 2+2?".toList), []] := by decide

/-- C10, confirmed.  When a block contains several lines beginning with the
"Answer:" marker (resp. "Explanation:"), the first such line in block order
determines the parsed answer key (resp. explanation text); the later
matching lines are ignored. -/
theorem first_marker_line_wins :
    (∀ (ls1 ls2 : List (List Char)) (a : List Char) (q : Question),
      (∀ l ∈ ls1 ++ a :: ls2, '\n' ∉ l) → isAnswerLine a = true →
      (∀ l ∈ ls1, isAnswerLine l = false) →
      blockToQuestion (joinNL (ls1 ++ a :: ls2)) = some q →
      q.answer = pyStrip (dropAnswerTags a)) ∧
    (∀ (ls1 ls2 : List (List Char)) (e : List Char) (q : Question),
      (∀ l ∈ ls1 ++ e :: ls2, '\n' ∉ l) → isExplLine e = true →
      (∀ l ∈ ls1, isExplLine l = false) →
      blockToQuestion (joinNL (ls1 ++ e :: ls2)) = some q →
      q.explanation = pyStrip (dropExplTags e)) := by
  constructor
  · intro ls1 ls2 a q hnl ha h1 hbq
    have hsplit : splitNL (joinNL (ls1 ++ a :: ls2)) = ls1 ++ a :: ls2 :=
      splitNL_joinNL (by simp) hnl
    have hans : answerLineOf (joinNL (ls1 ++ a :: ls2)) = a := by
      unfold answerLineOf
      rw [hsplit, find?_first _ _ _ _ ha h1]
      rfl
    rw [(blockToQuestion_eq_some hbq).2.2.1, hans]
  · intro ls1 ls2 e q hnl he h1 hbq
    have hsplit : splitNL (joinNL (ls1 ++ e :: ls2)) = ls1 ++ e :: ls2 :=
      splitNL_joinNL (by simp) hnl
    have hexp : explLineOf (joinNL (ls1 ++ e :: ls2)) = e := by
      unfold explLineOf
      rw [hsplit, find?_first _ _ _ _ he h1]
      rfl
    rw [(blockToQuestion_eq_some hbq).2.2.2, hexp]

/-- C10, witness: in a block with two Answer lines ("Answer: B" before
"Answer: C") and two Explanation lines, the parsed answer is B, from the
first Answer line. -/
theorem first_marker_line_wins_witness :
    blockToQuestion (joinNL (dupMarkerLead ++ dupMarkerAnswer :: dupMarkerRest)) =
      some dupMarkerQ ∧
    dupMarkerQ.answer = pyStrip (dropAnswerTags dupMarkerAnswer) :=
  ⟨by decide,
   first_marker_line_wins.1 dupMarkerLead dupMarkerRest dupMarkerAnswer dupMarkerQ
     (by decide) (by decide) (by decide) (by decide)⟩

/-!  Session-machine helper lemmas and concrete traces. -/

/-- The state after starting a one-question quiz from the example block. -/
def traceS1 : QuizState := applyStart initState (parse_questions exampleBlock 1).1 1 0

/-- The state after then submitting the correct key B at time 5. -/
def traceS2 : QuizState := submitAnswer traceS1 ['B'] 5

/-- The two-step trace start-then-correct-submit is reachable. -/
lemma trace_reachable : Reachable traceS2 := by
  have h1 : Step initState traceS1 :=
    Step.start initState exampleBlock 1 0 rfl (by decide) (by decide) (by decide)
  have h2 : Step traceS1 traceS2 :=
    Step.submit traceS1 ['B'] 5 (by decide) (by decide) (by decide)
  exact Relation.ReflTransGen.tail (Relation.ReflTransGen.tail Relation.ReflTransGen.refl h1) h2

/-- Submitting the correct key `k` times from a live state whose remaining
question count is exactly `k` adds `k` to the score and completes the
quiz, leaving the question list unchanged. -/
lemma runCorrect_all_correct (t : Nat) : ∀ (k : Nat) (s : QuizState),
    1 ≤ k → s.quiz_complete = false → s.num_questions = s.questions.length →
    s.current_q + k = s.questions.length →
    (runCorrect s t k).score = s.score + k ∧
    (runCorrect s t k).quiz_complete = true ∧
    (runCorrect s t k).questions = s.questions := by
  intro k
  induction k with
  | zero => intro s h1 _ _ _; exact absurd h1 (by decide)
  | succ k ih =>
    intro s _ hc hn hq
    have hlt : s.current_q < s.questions.length := by omega
    have hsome : s.questions[s.current_q]? = some (s.questions.get ⟨s.current_q, hlt⟩) := by
      rw [List.getElem?_eq_getElem hlt]
      rfl
    have hsel : s.questions.getD s.current_q default =
        s.questions.get ⟨s.current_q, hlt⟩ := by
      rw [List.getD_eq_getElem?_getD, hsome]
      rfl
    rw [runCorrect]
    rw [submitAnswer, hsome]
    simp only [hsel]
    cases k with
    | zero =>
      have hif : ¬ (s.current_q < s.num_questions - 1) := by omega
      rw [if_neg hif]
      rw [runCorrect]
      simp
    | succ k2 =>
      have hif : s.current_q < s.num_questions - 1 := by omega
      rw [if_pos hif]
      have hres := ih
        { s with
          user_answers := dictInsert s.user_answers s.current_q
            (s.questions.get ⟨s.current_q, hlt⟩).answer,
          score := if (s.questions.get ⟨s.current_q, hlt⟩).answer =
              (s.questions.get ⟨s.current_q, hlt⟩).answer then s.score + 1 else s.score,
          current_q := s.current_q + 1 }
        (by omega) (by simpa using hc) (by simpa using hn) (by simp; omega)
      simp only [if_pos rfl] at hres
      refine ⟨?_, hres.2.1, by simpa using hres.2.2⟩
      rw [hres.1]
      simp
      omega

/-- C6, confirmed.  Starting a session on a question set of length `L ≥ 1`
and submitting the correct key for each of the `L` questions in order
yields final score `L`, a complete quiz, and a percentage of 100.
(`L` is also passed as the requested count, as in the application, where
a successfully parsed question list always has exactly the requested
length.) -/
theorem all_correct_round_trip (s : QuizState) (qs : List Question) (L t t2 : Nat)
    (hL : qs.length = L) (h1 : 1 ≤ L) :
    (runCorrect (applyStart s qs L t) t2 L).score = L ∧
    (runCorrect (applyStart s qs L t) t2 L).quiz_complete = true ∧
    percentage (runCorrect (applyStart s qs L t) t2 L) = 100 := by
  have hne : qs ≠ [] := by
    intro e
    rw [e] at hL
    simp at hL
    omega
  have hs0 : applyStart s qs L t =
      { questions := qs, current_q := 0, score := 0, quiz_started := true,
        quiz_complete := false, user_answers := [], num_questions := L,
        start_time := some t, time_taken := s.time_taken } := by
    rw [applyStart, if_neg hne]
  obtain ⟨hsc, hcm, hqs⟩ := runCorrect_all_correct t2 L (applyStart s qs L t) h1
    (by rw [hs0]) (by rw [hs0]; exact hL.symm) (by rw [hs0]; simpa using hL.symm)
  have hls : (applyStart s qs L t).score = 0 := by rw [hs0]
  have hlq : (applyStart s qs L t).questions = qs := by rw [hs0]
  have hscore : (runCorrect (applyStart s qs L t) t2 L).score = L := by
    rw [hsc, hls]
    omega
  refine ⟨hscore, hcm, ?_⟩
  unfold percentage
  rw [hscore, hqs, hlq, hL]
  have hLQ : (L : ℚ) ≠ 0 := Nat.cast_ne_zero.mpr (by omega)
  rw [div_self hLQ, one_mul]

/-- C6, witness: a one-question all-correct run. -/
theorem all_correct_round_trip_witness :
    ([exampleQ] : List Question).length = 1 ∧ 1 ≤ 1 ∧
    ((runCorrect (applyStart initState [exampleQ] 1 0) 5 1).score = 1 ∧
     (runCorrect (applyStart initState [exampleQ] 1 0) 5 1).quiz_complete = true ∧
     percentage (runCorrect (applyStart initState [exampleQ] 1 0) 5 1) = 100) :=
  ⟨rfl, by decide, all_correct_round_trip initState [exampleQ] 1 0 5 rfl (by decide)⟩

/-- C7, counterexample.  A reachable state violating `score ≤ currentIndex`:
after starting a one-question quiz and answering it correctly, the final
submission increments the score but leaves `current_q` at 0, so the
reachable state `traceS2` has score 1 > currentIndex 0. -/
theorem score_exceeds_index_at_completion :
    Reachable traceS2 ∧ traceS2.score = 1 ∧ traceS2.current_q = 0 ∧
    ¬ (traceS2.score ≤ traceS2.current_q) :=
  ⟨trace_reachable, by decide, by decide, by decide⟩

/-- The score bounds that every transition of the machine preserves. -/
def ScoreInv (s : QuizState) : Prop :=
  (s.quiz_complete = false → s.score ≤ s.current_q) ∧
  s.score ≤ s.current_q + 1 ∧ s.score ≤ s.questions.length

/-- Unfolding `submitAnswer` when the current index is in range. -/
lemma submitAnswer_of_some {s : QuizState} {q : Question} {sel : List Char} {t : Nat}
    (h : s.questions[s.current_q]? = some q) :
    submitAnswer s sel t =
      if s.current_q < s.num_questions - 1 then
        { s with
          user_answers := dictInsert s.user_answers s.current_q sel,
          score := if sel = q.answer then s.score + 1 else s.score,
          current_q := s.current_q + 1 }
      else
        { s with
          user_answers := dictInsert s.user_answers s.current_q sel,
          score := if sel = q.answer then s.score + 1 else s.score,
          quiz_complete := true,
          time_taken :=
            match s.start_time with
            | some t0 => some (t - t0)
            | none => s.time_taken } := by
  rw [submitAnswer, h]

/-- One transition preserves the score bounds. -/
lemma step_preserves_score_inv {a b : QuizState} (hstep : Step a b)
    (ih : ScoreInv a) : ScoreInv b := by
  cases hstep with
  | start raw n t h0 hn1 hn30 hne =>
    unfold ScoreInv
    rw [applyStart, if_neg hne]
    exact ⟨fun _ => Nat.le_refl 0, Nat.le_succ 0, Nat.zero_le _⟩
  | submit sel t hs hc hlt =>
    obtain ⟨iha, ihb, ihc⟩ := ih
    have hsc : a.score ≤ a.current_q := iha hc
    have hsome : a.questions[a.current_q]? =
        some (a.questions.get ⟨a.current_q, hlt⟩) := by
      rw [List.getElem?_eq_getElem hlt]
      rfl
    have hstep1 : (if sel = (a.questions.get ⟨a.current_q, hlt⟩).answer
        then a.score + 1 else a.score) ≤ a.score + 1 := by
      split
      · omega
      · omega
    unfold ScoreInv
    rw [submitAnswer_of_some hsome]
    by_cases hbr : a.current_q < a.num_questions - 1
    · rw [if_pos hbr]
      refine ⟨fun _ => ?_, ?_, ?_⟩ <;> dsimp only <;> omega
    · rw [if_neg hbr]
      refine ⟨fun e => ?_, ?_, ?_⟩
      · dsimp only at e
        exact Bool.noConfusion e
      · dsimp only
        omega
      · dsimp only
        omega
  | defensive hs hc hge =>
    obtain ⟨iha, _, ihc⟩ := ih
    have hsc : a.score ≤ a.current_q := iha hc
    refine ⟨fun e => ?_, ?_, ?_⟩
    · dsimp only at e
      exact Bool.noConfusion e
    · dsimp only
      omega
    · dsimp only
      omega
  | restart hc =>
    exact ⟨fun _ => Nat.le_refl 0, Nat.le_succ 0, Nat.le_refl 0⟩

/-- C7, amended.  In every reachable state, `0 ≤ score ≤ currentIndex`
holds while the quiz is not complete; in general only
`score ≤ currentIndex + 1` holds (the final submission scores without
advancing the index), and `score ≤ len(questions)` always holds. -/
theorem score_bound_invariant : ∀ s : QuizState, Reachable s →
    (s.quiz_complete = false → s.score ≤ s.current_q) ∧
    s.score ≤ s.current_q + 1 ∧ s.score ≤ s.questions.length := by
  intro s h
  unfold Reachable at h
  induction h with
  | refl => exact ⟨fun _ => Nat.le_refl 0, by decide, by decide⟩
  | tail hab hstep ih => exact step_preserves_score_inv hstep ih

/-- C7, witness: the amended invariant evaluated at the initial state. -/
theorem score_bound_invariant_witness :
    (initState.quiz_complete = false → initState.score ≤ initState.current_q) ∧
    initState.score ≤ initState.current_q + 1 ∧
    initState.score ≤ initState.questions.length :=
  score_bound_invariant initState Relation.ReflTransGen.refl

/-- C8, confirmed.  Whenever the quiz is started and not complete and
`current_q` is at or past the end of the question list, the main interface
marks the quiz complete without indexing the question list: the view is the
completed state, never the out-of-range fault. -/
theorem defensive_auto_complete (s : QuizState)
    (h1 : s.quiz_started = true) (h2 : s.quiz_complete = false)
    (h3 : s.questions.length ≤ s.current_q) :
    mainQuizView s = QuizView.completed { s with quiz_complete := true } ∧
    mainQuizView s ≠ QuizView.fault := by
  have hview : mainQuizView s = QuizView.completed { s with quiz_complete := true } := by
    unfold mainQuizView
    rw [if_pos ⟨h1, h2⟩, if_pos h3]
  exact ⟨hview, by rw [hview]; intro e; exact QuizView.noConfusion e⟩

/-- A session state whose question list was emptied externally while the
quiz is live. -/
def staleState : QuizState := ⟨[], 2, 0, true, false, [], 3, some 0, none⟩

/-- C8, witness: the defensive transition evaluated on a live state whose
index is out of range. -/
theorem defensive_auto_complete_witness :
    staleState.quiz_started = true ∧ staleState.quiz_complete = false ∧
    staleState.questions.length ≤ staleState.current_q ∧
    (mainQuizView staleState =
      QuizView.completed { staleState with quiz_complete := true } ∧
     mainQuizView staleState ≠ QuizView.fault) :=
  ⟨rfl, rfl, by decide, defensive_auto_complete staleState rfl rfl (by decide)⟩

/-- C9, counterexample.  Restarting from the reachable completed state
`traceS2` (which holds `start_time = some 0` and `time_taken = some 5`)
does not discard the timing information: both fields survive the restart,
contradicting the claim that every field is cleared. -/
theorem restart_keeps_timing :
    Reachable traceS2 ∧ traceS2.quiz_complete = true ∧
    (restartQuiz traceS2).time_taken = some 5 ∧
    (restartQuiz traceS2).start_time = some 0 ∧
    ¬ ((restartQuiz traceS2).time_taken = none) :=
  ⟨trace_reachable, by decide, by decide, by decide, by decide⟩

/-- C9, amended.  From any state, restart returns the session to Idle with
questions empty, `current_q = 0`, `score = 0`, answers empty and both flags
false — but the timing fields `start_time` and `time_taken` are retained,
not discarded (they are only overwritten by a later start or completion). -/
theorem restart_resets_fields : ∀ s : QuizState,
    (restartQuiz s).questions = [] ∧ (restartQuiz s).current_q = 0 ∧
    (restartQuiz s).score = 0 ∧ (restartQuiz s).quiz_started = false ∧
    (restartQuiz s).quiz_complete = false ∧ (restartQuiz s).user_answers = [] ∧
    (restartQuiz s).start_time = s.start_time ∧
    (restartQuiz s).time_taken = s.time_taken :=
  fun _ => ⟨rfl, rfl, rfl, rfl, rfl, rfl, rfl, rfl⟩

end QuizMaster
